import Mathlib

/-!
Shallow embedding of the `search_meetings` pipeline of
`src/src/index.ts` (the active HTTP handler, lines 180-568) together with
the pieces of `src/src/types.ts` and the Fathom client that the pipeline
observes.  JavaScript strings are Lean `String`s, JS `undefined`/`null`
become `Option`, JS numbers used as counts become `Nat`, and the remote
paginated endpoint is a function from request parameters to one page.
The regular expressions of the handler are translated character by
character, including their greediness and backtracking behaviour.
-/

namespace Fathom

/-! ## Character classes used by the handler's regular expressions -/

/-- ASCII decimal digit, the `\d` class. -/
def isDigitC (c : Char) : Bool := '0' ≤ c && c ≤ '9'

/-- ASCII lowercase letter. -/
def isLowerC (c : Char) : Bool := 'a' ≤ c && c ≤ 'z'

/-- ASCII uppercase letter. -/
def isUpperC (c : Char) : Bool := 'A' ≤ c && c ≤ 'Z'

/-- ASCII letter; with the `i` flag the `[a-z]` class matches these. -/
def isLetterC (c : Char) : Bool := isLowerC c || isUpperC c

/-- The `\w` class: letters, digits and underscore. -/
def isWordC (c : Char) : Bool := isLetterC c || isDigitC c || c = '_'

/-- The `\s` class (ASCII part): space, tab, LF, VT, FF, CR. -/
def isWsC (c : Char) : Bool :=
  c = ' ' || c = '\t' || c = '\n' || c = '\r' || c = Char.ofNat 11 || c = Char.ofNat 12

/-- The class `[\w.+-]` (local part of an email in the handler's regex). -/
def isEmailLocalC (c : Char) : Bool := isWordC c || c = '.' || c = '+' || c = '-'

/-- The class `[\w.-]` (domain part of an email in the handler's regex). -/
def isEmailDomC (c : Char) : Bool := isWordC c || c = '.' || c = '-'

/-- The class `[a-z0-9-]` with the `i` flag (first chunk of a bare domain). -/
def isDomainChunkC (c : Char) : Bool := isLetterC c || isDigitC c || c = '-'

/-- The apostrophe character, written via its code point. -/
def aposC : Char := Char.ofNat 39

/-- One of the two JS quote characters, `["']`. -/
def isQuoteC (c : Char) : Bool := c = '"' || c = aposC

/-! ## Generic string helpers mirroring JS semantics -/

/-- Boolean sub-list prefix test on characters. -/
def charsLeadWith : List Char → List Char → Bool
  | [], _ => true
  | _ :: _, [] => false
  | x :: xs, y :: ys => x == y && charsLeadWith xs ys

/-- Boolean contiguous-substring test on characters. -/
def charsContain (needle : List Char) : List Char → Bool
  | [] => needle.isEmpty
  | c :: cs => charsLeadWith needle (c :: cs) || charsContain needle cs

/-- JS `hay.includes(needle)`: contiguous substring containment. -/
def jsIncludes (hay needle : String) : Bool := charsContain needle.data hay.data

/-- JS `toLowerCase()` on the ASCII range, over the character list
(`String.toLower` itself is compiled by well-founded recursion and does
not reduce definitionally). -/
def jsToLower (s : String) : String := String.mk (s.data.map Char.toLower)

/-- JS `isEmpty`-style test over the character list. -/
def jsIsEmpty (s : String) : Bool := s.data.isEmpty

/-- JS `new Set(...)` spread back into an array: drop later duplicates,
keeping first occurrences in order. -/
def dedupJSAux [BEq α] (seen : List α) : List α → List α
  | [] => []
  | x :: xs =>
    if seen.contains x then dedupJSAux seen xs
    else x :: dedupJSAux (seen ++ [x]) xs

/-- First-occurrence deduplication, as `[...new Set(l)]` does. -/
def dedupJS [BEq α] (l : List α) : List α := dedupJSAux [] l

/-- Case-insensitive prefix match; on success returns the remainder. -/
def ciStripLead : List Char → List Char → Option (List Char)
  | [], l => some l
  | _ :: _, [] => none
  | n :: ns, c :: cs => if n.toLower == c.toLower then ciStripLead ns cs else none

/-- Worker for `ciReplaceAll`, with step fuel (one step per emitted char;
a successful match always consumes at least one character, so
`length + 1` fuel is enough). -/
def ciReplaceAux (needle : List Char) : Nat → List Char → List Char
  | _, [] => []
  | 0, l => l
  | fuel + 1, c :: cs =>
    match ciStripLead needle (c :: cs) with
    | some rest => ' ' :: ciReplaceAux needle fuel rest
    | none => c :: ciReplaceAux needle fuel cs

/-- JS `s.replace(new RegExp(escape(needle), 'gi'), ' ')`: global,
case-insensitive, left-to-right, non-overlapping literal replacement by a
single space.  Every call site of the handler passes a non-empty needle. -/
def ciReplaceAll (s needle : String) : String :=
  if jsIsEmpty needle then s
  else String.mk (ciReplaceAux needle.data (s.data.length + 1) s.data)

/-- Structural whitespace-run collapsing, the `replace(/\s+/g, ' ')` part
of the handler's normalisation. -/
def collapseWs : List Char → List Char
  | [] => []
  | c :: cs =>
    if isWsC c then
      match collapseWs cs with
      | ' ' :: rest => ' ' :: rest
      | rest => ' ' :: rest
    else c :: collapseWs cs

/-- JS `trim()`: drop leading and trailing whitespace. -/
def jsTrimChars (l : List Char) : List Char :=
  ((l.dropWhile isWsC).reverse.dropWhile isWsC).reverse

/-- The handler's `effectiveSearchTerm.replace(/\s+/g, ' ').trim()`. -/
def normWs (s : String) : String := String.mk (jsTrimChars (collapseWs s.data))

/-- JS `s.trim()` on a `String`. -/
def jsTrimStr (s : String) : String := String.mk (jsTrimChars s.data)

/-- The map step `d.trim().replace(/[)\]"']$/, '')` applied to every raw
domain match: trim, then strip one trailing `)`, `]`, `"` or `'`. -/
def stripTrailer (s : String) : String :=
  let t := jsTrimStr s
  match t.data.getLast? with
  | some c =>
    if c = ')' || c = ']' || c = '"' || c = aposC then String.mk t.data.dropLast else t
  | none => t

/-! ## The regular expressions of the handler

`/last\s+(\d+)|derniers?\s+(\d+)/`, `/@agent\(["']?([^"')]+)["']?\)/`,
`/\b[\w.+-]+@[\w.-]+\.[a-z]{2,}\b/gi`,
`/\b([a-z0-9-]+\.[a-z]{2,})(?:\b|\s|\)|\]|"|')/gi` and
`/@([\w.-]+\.[a-z]{2,})/i`, each translated with the backtracking the JS
engine performs on them. -/

/-- Digits of a decimal numeral folded into a `Nat` (JS `parseInt`). -/
def digitsToNat (l : List Char) : Nat :=
  l.foldl (fun n c => n * 10 + (c.toNat - '0'.toNat)) 0

/-- `\s+(\d+)`: at least one whitespace char (greedy), then at least one
digit; backtracking a shorter whitespace run can never help because the
next character would still be whitespace, not a digit. -/
def wsDigits (l : List Char) : Option Nat :=
  let w := l.takeWhile isWsC
  if w.isEmpty then none
  else
    let d := (l.drop w.length).takeWhile isDigitC
    if d.isEmpty then none else some (digitsToNat d)

/-- Alternative 1 of the "last N" regex anchored at the current position:
`last\s+(\d+)`. -/
def tryLastAt : List Char → Option Nat
  | 'l' :: 'a' :: 's' :: 't' :: rest => wsDigits rest
  | _ => none

/-- Alternative 2 anchored at the current position: `derniers?\s+(\d+)`;
the optional `s` is tried greedily first, exactly as the JS engine does. -/
def tryDernierAt : List Char → Option Nat
  | 'd' :: 'e' :: 'r' :: 'n' :: 'i' :: 'e' :: 'r' :: rest =>
    (match rest with
     | 's' :: rest2 =>
       (match wsDigits rest2 with
        | some n => some n
        | none => wsDigits rest)
     | _ => wsDigits rest)
  | _ => none

/-- Scan for the first position where either alternative of
`/last\s+(\d+)|derniers?\s+(\d+)/` matches (alternative 1 preferred at
each position, as in JS). -/
def lastScan : List Char → Option Nat
  | [] => none
  | c :: cs =>
    match tryLastAt (c :: cs) with
    | some n => some n
    | none =>
      match tryDernierAt (c :: cs) with
      | some n => some n
      | none => lastScan cs

/-- `searchTerm.match(/last\s+(\d+)|derniers?\s+(\d+)/)` followed by
`parseInt` of the captured digits. -/
def parseLastN (s : String) : Option Nat := lastScan s.data

/-- Body of `@agent(...)`: `["']?([^"')]+)["']?\)` anchored after the
opening parenthesis, with the JS backtracking on the optional leading
quote. -/
def tryAgentBody (rest : List Char) : Option String :=
  let attempt : List Char → Option String := fun l =>
    let body := l.takeWhile (fun c => !(c = '"' || c = aposC || c = ')'))
    if body.isEmpty then none
    else
      match l.drop body.length with
      | c :: cs =>
        if isQuoteC c then
          match cs with
          | ')' :: _ => some (String.mk body)
          | _ => none
        else if c = ')' then some (String.mk body)
        else none
      | [] => none
  match rest with
  | c :: cs =>
    if isQuoteC c then
      match attempt cs with
      | some b => some b
      | none => attempt rest
    else attempt rest
  | [] => none

/-- `/@agent\(["']?([^"')]+)["']?\)/` anchored at the current position. -/
def tryAgentAt : List Char → Option String
  | '@' :: 'a' :: 'g' :: 'e' :: 'n' :: 't' :: '(' :: rest => tryAgentBody rest
  | _ => none

/-- Scan for the first `@agent(...)` directive. -/
def agentScan : List Char → Option String
  | [] => none
  | c :: cs =>
    match tryAgentAt (c :: cs) with
    | some b => some b
    | none => agentScan cs

/-- `searchTerm.match(/@agent\(["']?([^"')]+)["']?\)/)`, capture group 1. -/
def parseAgent (s : String) : Option String := agentScan s.data

/-- Try the split of the run `R` of `[\w.-]` characters at dot index `i`:
`[\w.-]+\.[a-z]{2,}\b` requires at least two letters after the dot and a
word boundary after the greedy letter run (`afterR` is the character
following `R`, used when the letters reach the end of `R`).  Backtracking
a shorter letter run can never restore the boundary, because the next
character would then be a letter. -/
def tryDotB (R : List Char) (afterR : Option Char) (i : Nat) : Option Nat :=
  let tail := R.drop (i + 1)
  let T := tail.takeWhile isLetterC
  if 2 ≤ T.length then
    let nxt : Option Char :=
      match tail.drop T.length with
      | c :: _ => some c
      | [] => afterR
    match nxt with
    | none => some (i + 1 + T.length)
    | some c => if isWordC c then none else some (i + 1 + T.length)
  else none

/-- Greedy split of the `[\w.-]` run for `[\w.-]+\.[a-z]{2,}\b`: the JS
engine backtracks from the longest `[\w.-]+`, i.e. tries the rightmost
dot first.  Returns the number of characters of `R` consumed. -/
def domSplitB (R : List Char) (afterR : Option Char) : Option Nat :=
  (((List.range R.length).filter fun i => (R.get? i == some '.') && (i != 0)).reverse).findSome?
    (tryDotB R afterR)

/-- As `tryDotB` but without the trailing word boundary, for the
`/@([\w.-]+\.[a-z]{2,})/i` regex of `extractDomain`. -/
def tryDotNB (R : List Char) (i : Nat) : Option Nat :=
  let T := (R.drop (i + 1)).takeWhile isLetterC
  if 2 ≤ T.length then some (i + 1 + T.length) else none

/-- Greedy split without a trailing boundary (rightmost dot first). -/
def domSplitNB (R : List Char) : Option Nat :=
  (((List.range R.length).filter fun i => (R.get? i == some '.') && (i != 0)).reverse).findSome?
    (tryDotNB R)

/-- One anchored attempt of `[\w.+-]+@[\w.-]+\.[a-z]{2,}\b` (the leading
`\b` is checked by the scanner).  Returns the number of characters
consumed.  The local part takes its maximal run; giving characters back
cannot make the following literal `@` match. -/
def tryEmailAt (l : List Char) : Option Nat :=
  let A := l.takeWhile isEmailLocalC
  if A.isEmpty then none
  else
    match l.drop A.length with
    | '@' :: rest =>
      let R := rest.takeWhile isEmailDomC
      match domSplitB R ((rest.drop R.length).head?) with
      | some k => some (A.length + 1 + k)
      | none => none
    | _ => none

/-- Global scan of `/\b[\w.+-]+@[\w.-]+\.[a-z]{2,}\b/gi`: leftmost,
non-overlapping; `prevWord` tracks whether the previous character is a
word character for the `\b` test.  One fuel unit per step; every step
consumes at least one character.  After a match the last consumed
character is a letter, hence a word character. -/
def emailScanGo : Nat → Bool → List Char → List (List Char)
  | 0, _, _ => []
  | _ + 1, _, [] => []
  | fuel + 1, prevWord, c :: cs =>
    if prevWord != isWordC c then
      match tryEmailAt (c :: cs) with
      | some k => (c :: cs).take k :: emailScanGo fuel true ((c :: cs).drop k)
      | none => emailScanGo fuel (isWordC c) cs
    else emailScanGo fuel (isWordC c) cs

/-- `searchTerm.match(emailRegex) || []` as a list of matched strings. -/
def emailMatches (s : String) : List String :=
  (emailScanGo (s.data.length + 1) false s.data).map String.mk

/-- One anchored attempt of `([a-z0-9-]+\.[a-z]{2,})(?:\b|\s|\)|\]|"|')`.
The first chunk takes its maximal run (it cannot contain a dot, so
backtracking cannot make the literal dot match).  The trailing
alternation tries the zero-width `\b` first, and `\b` succeeds whenever
any of the other (non-word) alternatives would, so a match never consumes
a trailing character. -/
def tryDomainAt (l : List Char) : Option Nat :=
  let A := l.takeWhile isDomainChunkC
  if A.isEmpty then none
  else
    match l.drop A.length with
    | '.' :: rest =>
      let T := rest.takeWhile isLetterC
      if 2 ≤ T.length then
        match (rest.drop T.length).head? with
        | none => some (A.length + 1 + T.length)
        | some c2 => if isWordC c2 then none else some (A.length + 1 + T.length)
      else none
    | _ => none

/-- Global scan of the bare-domain regex (leftmost, non-overlapping). -/
def domainScanGo : Nat → Bool → List Char → List (List Char)
  | 0, _, _ => []
  | _ + 1, _, [] => []
  | fuel + 1, prevWord, c :: cs =>
    if prevWord != isWordC c then
      match tryDomainAt (c :: cs) with
      | some k => (c :: cs).take k :: domainScanGo fuel true ((c :: cs).drop k)
      | none => domainScanGo fuel (isWordC c) cs
    else domainScanGo fuel (isWordC c) cs

/-- `searchTerm.match(domainRegex) || []` as a list of matched strings. -/
def domainMatches (s : String) : List String :=
  (domainScanGo (s.data.length + 1) false s.data).map String.mk

/-- Worker of `extractDomain`: find the first `@` from which
`([\w.-]+\.[a-z]{2,})` parses, and return the capture. -/
def extractGo : List Char → Option (List Char)
  | [] => none
  | c :: cs =>
    if c = '@' then
      let R := cs.takeWhile isEmailDomC
      match domSplitNB R with
      | some k => some (R.take k)
      | none => extractGo cs
    else extractGo cs

/-- The handler's helper `extractDomain`:
`email.match(/@([\w.-]+\.[a-z]{2,})/i)`, capture group 1. -/
def extractDomain (s : String) : Option String := (extractGo s.data).map String.mk

/-! ## Data model (`src/src/types.ts`)

Fields the pipeline reads through optional chaining (`?.`) are `Option`;
`url` and `created_at` are required strings in `FathomMeeting`. -/

/-- One `calendar_invitees` entry. -/
structure Attendee where
  name : Option String
  email : Option String
  email_domain : Option String
  is_external : Option Bool
deriving DecidableEq, Repr

/-- One `action_items` entry (the handler reads only `description`). -/
structure ActionItem where
  description : Option String
  user_generated : Option Bool
  completed : Option Bool
deriving DecidableEq, Repr

/-- One transcript entry (the handler reads only `text`). -/
structure TranscriptEntry where
  speaker_display_name : Option String
  text : Option String
  timestamp : Option String
deriving DecidableEq, Repr

/-- The `default_summary` object. -/
structure MeetingSummary where
  template_name : Option String
  markdown_formatted : Option String
deriving DecidableEq, Repr

/-- The `recorded_by` object; the safety filter reads `team`. -/
structure RecordedBy where
  name : Option String
  email : Option String
  email_domain : Option String
  team : Option String
deriving DecidableEq, Repr

/-- A `FathomMeeting` record as the pipeline observes it.
`recording_id` is the stable identifier. -/
structure Meeting where
  recording_id : Nat
  title : Option String
  meeting_title : Option String
  url : String
  share_url : Option String
  created_at : String
  scheduled_start_time : Option String
  calendar_invitees : Option (List Attendee)
  recorded_by : Option RecordedBy
  default_summary : Option MeetingSummary
  action_items : Option (List ActionItem)
  transcript : Option (List TranscriptEntry)
deriving DecidableEq, Repr

/-- `meeting.recorded_by?.team`. -/
def teamOfMeeting (m : Meeting) : Option String := m.recorded_by.bind RecordedBy.team

/-- The date lower bound the handler puts into `created_after`:
either the caller's ISO string, or the ISO rendering of
`Date.now() - n * 24*60*60*1000` (kept abstract as the day count `n`). -/
inductive DateBound where
  | explicitDate (s : String)
  | daysAgo (n : Nat)
deriving DecidableEq, Repr

/-- The parameter object sent to `fathomClient.listMeetings`. -/
structure ApiParams where
  include_summary : Bool
  include_action_items : Bool
  include_transcript : Bool
  include_crm_matches : Bool
  limit : Nat
  created_after : DateBound
  created_before : Option String
  calendar_invitees_domains : Option (List String)
  recorded_by : Option (List String)
  teams : Option (List String)
  cursor : Option String
deriving DecidableEq, Repr

/-- One page of the paginated `listMeetings` endpoint. -/
structure Page where
  items : List Meeting
  next_cursor : Option String
deriving DecidableEq, Repr

/-- The arguments object of the `search_meetings` tool call.  Absent JSON
keys are `none`; counts are `Nat`. -/
structure SearchArgs where
  search_term : Option String
  limit : Option Nat
  days_back : Option Nat
  created_after : Option String
  created_before : Option String
  exclude_teams : Option (List String)
  include_transcript : Option Bool
  include_summary : Option Bool
  include_action_items : Option Bool
  calendar_invitees : Option (List String)
  calendar_invitees_domains : Option (List String)
  recorded_by : Option (List String)
deriving DecidableEq, Repr

/-- An empty arguments object (every field absent). -/
def baseArgs : SearchArgs :=
  ⟨none, none, none, none, none, none, none, none, none, none, none, none⟩

/-- One formatted record of the response (`formattedMeetings` entries). -/
structure FormattedMeeting where
  title : Option String
  date : Option String
  url : Option String
  attendees : Option (List Attendee)
  recorded_by : Option RecordedBy
  summary : Option MeetingSummary
  action_items : Option (List ActionItem)
  transcript : Option (List TranscriptEntry)
deriving DecidableEq, Repr

/-- The success payload of `search_meetings` (the `filters_applied`
object is flattened into `filters_*` fields). -/
structure SearchResult where
  search_term : Option String
  total_found : Nat
  showing : Nat
  has_more : Bool
  filters_exclude_teams : List String
  filters_days_back : Nat
  filters_include_summary : Bool
  filters_include_action_items : Bool
  filters_include_transcript : Bool
  meetings : List FormattedMeeting
deriving DecidableEq, Repr

/-! ## JS truthiness helpers -/

/-- Truthiness of an optional string (`undefined` and `''` are falsy). -/
def strOptTruthy : Option String → Bool
  | some s => !jsIsEmpty s
  | none => false

/-- Truthiness of an optional number (`undefined` and `0` are falsy). -/
def natTruthy : Option Nat → Bool
  | some n => n != 0
  | none => false

/-- JS `a || b` on two optional strings (`''` falls through to `b`). -/
def jsOrS (a b : Option String) : Option String := if strOptTruthy a then a else b

/-! ## Query planning (`handleMCPRequest`, lines 185-393) -/

/-- `args.search_term?.toLowerCase() || ''`. -/
def searchLowerOf (args : SearchArgs) : String :=
  match args.search_term with
  | some s => jsToLower s
  | none => ""

/-- Everything the handler derives from the arguments before fetching:
the detected "last N" request, the agent directive, the identity-token
heuristics, the API parameters and the residual free text. -/
structure QueryPlan where
  searchLower : String
  lastN : Option Nat
  isLastRequest : Bool
  agentEmail : Option String
  emailsToFilter : List String
  domains : Option (List String)
  teams : Option (List String)
  recordedBy : Option (List String)
  effGlobal : Option String
  freeText : String
  includeSummary : Bool
  includeActionItems : Bool
  includeTranscript : Bool
  createdAfter : DateBound
  createdBefore : Option String
  hasSpecificFilters : Bool
deriving DecidableEq, Repr

/-- The heuristic chain of lines 241-340 run on a truthy search term:
returns `(emailsToFilter, calendar_invitees_domains, teams,
effectiveSearchTerm)` before normalisation. -/
def heuristicChain (searchTerm : String) (agentEmail : Option String) :
    List String × Option (List String) × Option (List String) × String :=
  let foundEmails := dedupJS (emailMatches searchTerm)
  let foundDomains := dedupJS ((domainMatches searchTerm).map stripTrailer)
  match agentEmail with
  | some a =>
    if jsIncludes a "@" then
      let domains : Option (List String) :=
        match extractDomain a with
        | some d => some [d]
        | none => none
      ([a], domains, none, ciReplaceAll searchTerm a)
    else
      ([], some [a], none, ciReplaceAll searchTerm a)
  | none =>
    if !foundEmails.isEmpty then
      let ds := foundEmails.filterMap extractDomain
      let domains : Option (List String) := if !ds.isEmpty then some ds else none
      (foundEmails, domains, none, foundEmails.foldl ciReplaceAll searchTerm)
    else if !foundDomains.isEmpty then
      ([], some foundDomains, none, foundDomains.foldl ciReplaceAll searchTerm)
    else if jsIncludes searchTerm "@" then
      let domains : Option (List String) :=
        match extractDomain searchTerm with
        | some d => some [d]
        | none => none
      ([searchTerm], domains, none, ciReplaceAll searchTerm searchTerm)
    else if jsIncludes searchTerm "." && !jsIncludes searchTerm "@"
        && !jsIncludes searchTerm " " then
      ([], some [searchTerm], none, ciReplaceAll searchTerm searchTerm)
    else if jsIncludes searchTerm "team" || jsIncludes searchTerm "department"
        || jsIncludes searchTerm "group" then
      ([], none, some [searchTerm], searchTerm)
    else
      ([], none, none, searchTerm)

/-- The full planning phase of the handler. -/
def planOf (args : SearchArgs) : QueryPlan :=
  let searchTerm := searchLowerOf args
  let lastN := parseLastN searchTerm
  let isLast := match lastN with | some n => n != 0 | none => false
  let agentEmail := parseAgent searchTerm
  let createdAfter : DateBound :=
    if strOptTruthy args.created_after then .explicitDate (args.created_after.getD "")
    else if natTruthy args.days_back then .daysAgo (min (args.days_back.getD 0) 365)
    else .daysAgo 180
  let createdBefore : Option String :=
    if strOptTruthy args.created_before then args.created_before else none
  let hTuple : List String × Option (List String) × Option (List String) × Option String :=
    if strOptTruthy args.search_term then
      let hc := heuristicChain searchTerm agentEmail
      let eff2 := normWs hc.2.2.2
      (hc.1, hc.2.1, hc.2.2.1, if jsIsEmpty eff2 then none else some eff2)
    else ([], none, none, none)
  let emailsA := hTuple.1
  let domainsA := hTuple.2.1
  let teamsA := hTuple.2.2.1
  let effGlobal := hTuple.2.2.2
  let ciTuple : List String × Option (List String) :=
    match args.calendar_invitees with
    | some ci =>
      if 0 < ci.length then
        let validEmails := ci.filter fun e => jsIncludes e "@" && jsIncludes e "."
        if !validEmails.isEmpty then
          let ds := validEmails.filterMap extractDomain
          let domains :=
            if !ds.isEmpty then some (domainsA.getD [] ++ ds) else domainsA
          (dedupJS (emailsA ++ validEmails), domains)
        else (emailsA, domainsA)
      else (emailsA, domainsA)
    | none => (emailsA, domainsA)
  let emailsB := ciTuple.1
  let domainsB := ciTuple.2
  let domainsC := match domainsB with
    | some ds => some (dedupJS ds)
    | none => none
  let domainsD := match args.calendar_invitees_domains with
    | some ds => some (dedupJS (domainsC.getD [] ++ ds))
    | none => domainsC
  let recordedBy := args.recorded_by
  { searchLower := searchTerm
    lastN := lastN
    isLastRequest := isLast
    agentEmail := agentEmail
    emailsToFilter := emailsB
    domains := domainsD
    teams := teamsA
    recordedBy := recordedBy
    effGlobal := effGlobal
    freeText := match effGlobal with | some s => s | none => searchTerm
    includeSummary := args.include_summary != some false
    includeActionItems := args.include_action_items != some false
    includeTranscript := args.include_transcript.getD false
    createdAfter := createdAfter
    createdBefore := createdBefore
    hasSpecificFilters := domainsD.isSome || recordedBy.isSome }

/-- The `apiParams` object actually sent to the client (the first call
carries no cursor). -/
def apiParamsOf (args : SearchArgs) : ApiParams :=
  let p := planOf args
  { include_summary := p.includeSummary
    include_action_items := p.includeActionItems
    include_transcript := p.includeTranscript
    include_crm_matches := false
    limit := 100
    created_after := p.createdAfter
    created_before := p.createdBefore
    calendar_invitees_domains := p.domains
    recorded_by := p.recordedBy
    teams := p.teams
    cursor := none }

/-! ## Pagination aggregator (lines 399-429) -/

/-- `const maxFetchLimit = 1000`. -/
def maxFetchLimit : Nat := 1000

/-- Truthiness of a cursor (`undefined` and `''` end the loop). -/
def cursorTruthy : Option String → Bool
  | some s => !jsIsEmpty s
  | none => false

/-- The `do { ... } while (cursor && totalFetched < maxFetchLimit)` loop:
fetch a page, append, stop once `maxFetchLimit` records were fetched or
no truthy cursor is returned.  `fuel` bounds the number of iterations;
`none` means the loop did not finish within `fuel` steps (the JS loop
would still be running). -/
def paginateLoop (source : ApiParams → Page) (base : ApiParams) :
    Nat → List Meeting → Nat → Option String → Option (List Meeting)
  | 0, _, _, _ => none
  | fuel + 1, acc, total, cursor =>
    let page := source { base with cursor := cursor }
    let acc2 := acc ++ page.items
    let total2 := total + page.items.length
    if maxFetchLimit ≤ total2 then some acc2
    else if cursorTruthy page.next_cursor then
      paginateLoop source base fuel acc2 total2 page.next_cursor
    else some acc2

/-- `allMeetings`: one exhaustive paginated aggregation when a domain or
owner filter is present, else a single call. -/
def fetchedMeetings (source : ApiParams → Page) (fuel : Nat) (args : SearchArgs) :
    Option (List Meeting) :=
  let base := apiParamsOf args
  if (planOf args).hasSpecificFilters then paginateLoop source base fuel [] 0 none
  else some (source base).items

/-! ## Client-side filters (lines 432-475) -/

/-- `s.toLowerCase().includes(freeText)` lifted over an optional field. -/
def optIncludes (os : Option String) (needle : String) : Bool :=
  match os with
  | some s => jsIncludes (jsToLower s) needle
  | none => false

/-- The client-side email filter of lines 432-443: keep a meeting iff some
attendee email (lowercased, truthy) is in the lowercased filter list. -/
def emailFilterPass (emails : List String) (m : Meeting) : Bool :=
  (m.calendar_invitees.getD []).any fun a =>
    match a.email with
    | some e => if jsIsEmpty e then false else (emails.map jsToLower).contains (jsToLower e)
    | none => false

/-- `const hardcodedExcludeTeams = ["Executive", "Personal", "No Team",
null, undefined]`.  `null` and `undefined` are both `none` here (they are
distinct JS values but behave identically in the filter). -/
def hardcodedExcludeTeams : List (Option String) :=
  [some "Executive", some "Personal", some "No Team", none]

/-- `[...new Set([...hardcodedExcludeTeams, ...userExcludeTeams])]`. -/
def allExcludeTeams (user : List String) : List (Option String) :=
  dedupJS (hardcodedExcludeTeams ++ user.map some)

/-- One entry of the exclusion list tested against the recording team:
a `null`/`undefined` entry excludes absent or empty teams, a string entry
excludes by case-insensitive substring containment. -/
def excludeEntryHits (recTeam : Option String) : Option String → Bool
  | none =>
    (match recTeam with
     | none => true
     | some t => jsIsEmpty t)
  | some ex =>
    (match recTeam with
     | none => false
     | some t => jsIncludes (jsToLower t) (jsToLower ex))

/-- `allExcludeTeams.some(...)` of lines 458-464. -/
def isTeamExcluded (entries : List (Option String)) (recTeam : Option String) : Bool :=
  entries.any (excludeEntryHits recTeam)

/-- The meetings surviving the client-side email filter and the hardcoded
security filter (`filteredMeetings`). -/
def candidateMeetings (source : ApiParams → Page) (fuel : Nat) (args : SearchArgs) :
    Option (List Meeting) :=
  (fetchedMeetings source fuel args).map fun allMs =>
    let p := planOf args
    let afterEmail :=
      if !p.emailsToFilter.isEmpty then allMs.filter (emailFilterPass p.emailsToFilter)
      else allMs
    afterEmail.filter fun m =>
      !isTeamExcluded (allExcludeTeams (args.exclude_teams.getD [])) (teamOfMeeting m)

/-! ## Match engine (lines 477-516) -/

/-- The multi-field match of lines 486-511. -/
def meetingMatches (freeText : String) (m : Meeting) : Bool :=
  let titleMatch := optIncludes m.title freeText || optIncludes m.meeting_title freeText
  let summaryMatch := optIncludes (m.default_summary.bind MeetingSummary.markdown_formatted) freeText
  let actionItemsMatch := (m.action_items.getD []).any fun it => optIncludes it.description freeText
  let attendeeMatch := (m.calendar_invitees.getD []).any fun a =>
    optIncludes a.name freeText || optIncludes a.email freeText
  let transcriptMatch := (m.transcript.getD []).any fun e => optIncludes e.text freeText
  titleMatch || summaryMatch || actionItemsMatch || attendeeMatch || transcriptMatch

/-- `matchingMeetings`: filter by the residual free text when it is
truthy, else pass everything through. -/
def matchingMeetings (source : ApiParams → Page) (fuel : Nat) (args : SearchArgs) :
    Option (List Meeting) :=
  (candidateMeetings source fuel args).map fun filtered =>
    let ft := (planOf args).freeText
    if !jsIsEmpty ft then filtered.filter (meetingMatches ft) else filtered

/-! ## Result shaping (lines 518-567) -/

/-- JS `array.slice(-n)`: the final `n` elements. -/
def jsSliceLast (n : Nat) (l : List Meeting) : List Meeting := l.drop (l.length - n)

/-- `Math.min(args.limit || 50, 100)`. -/
def limitOf (args : SearchArgs) : Nat :=
  min (match args.limit with | some l => if l = 0 then 50 else l | none => 50) 100

/-- The effective "last N" count: `isLastRequest && requestedLastCount`. -/
def effectiveLastN (p : QueryPlan) : Option Nat :=
  match p.lastN with
  | some n => if p.isLastRequest && n != 0 then some n else none
  | none => none

/-- `actualLimit`, which is also the claim-level requested count: `N` for
a "last N" request, else the capped caller limit. -/
def requestedCount (args : SearchArgs) : Nat :=
  match effectiveLastN (planOf args) with
  | some n => n
  | none => limitOf args

/-- One entry of `formattedMeetings`. -/
def formatMeeting (incSummary incAction incTranscript : Bool) (m : Meeting) :
    FormattedMeeting :=
  { title := jsOrS m.title m.meeting_title
    date := jsOrS m.scheduled_start_time (some m.created_at)
    url := jsOrS m.share_url (some m.url)
    attendees := m.calendar_invitees
    recorded_by := m.recorded_by
    summary := if incSummary then m.default_summary else none
    action_items := if incAction then m.action_items else none
    transcript := if incTranscript then m.transcript else none }

/-- `args.days_back || 180` as reported in `filters_applied`. -/
def reportedDaysBack (args : SearchArgs) : Nat :=
  match args.days_back with
  | some n => if n = 0 then 180 else n
  | none => 180

/-- `finalMeetings`: the "last N" slice for a last-N request, the first
`limit` matches otherwise (lines 518-532). -/
def finalSlice (args : SearchArgs) (matching : List Meeting) : List Meeting :=
  match effectiveLastN (planOf args) with
  | some n => jsSliceLast n matching
  | none => matching.take (limitOf args)

/-- The success payload built from the matching set (lines 518-567);
`requestedCount args` is the code's `actualLimit`. -/
def mkResult (args : SearchArgs) (matching : List Meeting) : SearchResult :=
  let p := planOf args
  let final := finalSlice args matching
  { search_term := args.search_term
    total_found := matching.length
    showing := final.length
    has_more := decide (requestedCount args < matching.length)
    filters_exclude_teams :=
      (allExcludeTeams (args.exclude_teams.getD [])).filterMap fun o =>
        match o with
        | some s => if jsIsEmpty s then none else some s
        | none => none
    filters_days_back := reportedDaysBack args
    filters_include_summary := p.includeSummary
    filters_include_action_items := p.includeActionItems
    filters_include_transcript := p.includeTranscript
    meetings := final.map (formatMeeting p.includeSummary p.includeActionItems p.includeTranscript) }

/-- The whole `search_meetings` tool call: plan, fetch, filter, match,
shape.  `none` only when the pagination loop exceeds its fuel. -/
def runSearch (source : ApiParams → Page) (fuel : Nat) (args : SearchArgs) :
    Option SearchResult :=
  (matchingMeetings source fuel args).map (mkResult args)

/-- Whether the call produced a success payload. -/
def searchSucceeds (source : ApiParams → Page) (fuel : Nat) (args : SearchArgs) : Bool :=
  (runSearch source fuel args).isSome

/-- `total_found` of the response (0 when no response was produced). -/
def resultTotalFound (source : ApiParams → Page) (fuel : Nat) (args : SearchArgs) : Nat :=
  ((runSearch source fuel args).map SearchResult.total_found).getD 0

/-- `showing` of the response (0 when no response was produced). -/
def resultShowing (source : ApiParams → Page) (fuel : Nat) (args : SearchArgs) : Nat :=
  ((runSearch source fuel args).map SearchResult.showing).getD 0

/-- `meetings` of the response (empty when no response was produced). -/
def resultMeetings (source : ApiParams → Page) (fuel : Nat) (args : SearchArgs) :
    List FormattedMeeting :=
  ((runSearch source fuel args).map SearchResult.meetings).getD []

/-- `filters_applied.days_back` of the response. -/
def resultDaysBack (source : ApiParams → Page) (fuel : Nat) (args : SearchArgs) : Nat :=
  ((runSearch source fuel args).map SearchResult.filters_days_back).getD 0

/-- The safety property of a formatted record's owning team: present,
non-empty, and free of the three hardcoded sensitive markers
(case-insensitive substring). -/
def teamSafeB (t : Option String) : Bool :=
  match t with
  | none => false
  | some s =>
    !jsIsEmpty s && !jsIncludes (jsToLower s) "executive" && !jsIncludes (jsToLower s) "personal"
      && !jsIncludes (jsToLower s) "no team"

/-! ## Concrete scenarios used to instantiate the theorems -/

/-- A meeting owned by the "Sales" team with one external-facing title. -/
def simpleMeeting (id : Nat) (t : String) : Meeting :=
  { recording_id := id
    title := some t
    meeting_title := none
    url := "https://fathom.video/calls/u"
    share_url := none
    created_at := "2025-03-01T10:00:00Z"
    scheduled_start_time := none
    calendar_invitees := none
    recorded_by := some ⟨some "Bob Roe", some "bob@acme.com", some "acme.com", some "Sales"⟩
    default_summary := none
    action_items := none
    transcript := none }

/-- A fully populated meeting used by the generic-search scenario. -/
def wMeeting : Meeting :=
  { recording_id := 1
    title := some "Weekly sync"
    meeting_title := some "Weekly sync"
    url := "https://fathom.video/calls/1"
    share_url := some "https://fathom.video/share/1"
    created_at := "2025-01-02T10:00:00Z"
    scheduled_start_time := some "2025-01-02T09:00:00Z"
    calendar_invitees := some [⟨some "Ana Perez", some "ana@acme.com", some "acme.com", some false⟩]
    recorded_by := some ⟨some "Ana Perez", some "ana@acme.com", some "acme.com", some "Sales"⟩
    default_summary := some ⟨some "General", some "Notes about roadmap."⟩
    action_items := some []
    transcript := none }

/-- A single-page source that always returns `wMeeting`. -/
def wSource : ApiParams → Page := fun _ => ⟨[wMeeting], none⟩

/-- A plain keyword request. -/
def wArgs : SearchArgs := { baseArgs with search_term := some "sync" }

/-- The payload `runSearch wSource 5 wArgs` produces. -/
def wSearchResult : SearchResult :=
  { search_term := some "sync"
    total_found := 1
    showing := 1
    has_more := false
    filters_exclude_teams := ["Executive", "Personal", "No Team"]
    filters_days_back := 180
    filters_include_summary := true
    filters_include_action_items := true
    filters_include_transcript := false
    meetings := [formatMeeting true true false wMeeting] }

/-- The "last 3 meetings" request. -/
def lastArgs3 : SearchArgs := { baseArgs with search_term := some "last 3 meetings" }

/-- First page of the two-page last-N scenario. -/
def cexMeetingA : Meeting := simpleMeeting 11 "recap last 3 meetings"

/-- Second page of the two-page last-N scenario. -/
def cexMeetingB : Meeting := simpleMeeting 12 "last 3 meetings planning"

/-- A source with two pages joined by a continuation token. -/
def cexSource : ApiParams → Page := fun p =>
  match p.cursor with
  | none => ⟨[cexMeetingA], some "cursor1"⟩
  | some _ => ⟨[cexMeetingB], none⟩

/-- A source that serves only the first page of `cexSource`. -/
def cexOnePage : ApiParams → Page := fun _ => ⟨[cexMeetingA], some "cursor1"⟩

/-- The domain-only request `legalstart.fr`. -/
def dupArgs : SearchArgs := { baseArgs with search_term := some "legalstart.fr" }

/-- A meeting with an attendee at the filtered domain. -/
def dupMeeting : Meeting :=
  { recording_id := 7
    title := some "Point client"
    meeting_title := none
    url := "https://fathom.video/calls/7"
    share_url := none
    created_at := "2025-02-01T10:00:00Z"
    scheduled_start_time := none
    calendar_invitees := some [⟨some "Bob", some "bob@legalstart.fr", some "legalstart.fr", some true⟩]
    recorded_by := some ⟨some "Bob", some "bob@acme.com", some "acme.com", some "Sales"⟩
    default_summary := none
    action_items := none
    transcript := none }

/-- A source that returns the same record on two consecutive pages. -/
def dupSourceOf (m : Meeting) : ApiParams → Page := fun p =>
  match p.cursor with
  | none => ⟨[m], some "c2"⟩
  | some _ => ⟨[m], none⟩

/-- Five chronologically ordered records delivered in one page. -/
def srcOf5 (a b c d e : Meeting) : ApiParams → Page := fun _ => ⟨[a, b, c, d, e], none⟩

/-- Concrete five meetings matching `last 3 meetings`. -/
def mtgE1 : Meeting := simpleMeeting 21 "last 3 meetings a"
def mtgE2 : Meeting := simpleMeeting 22 "last 3 meetings b"
def mtgE3 : Meeting := simpleMeeting 23 "last 3 meetings c"
def mtgE4 : Meeting := simpleMeeting 24 "last 3 meetings d"
def mtgE5 : Meeting := simpleMeeting 25 "last 3 meetings e"

/-- The request of the email-detection scenario. -/
def emailArgs7 : SearchArgs := { baseArgs with search_term := some "find calls with alice@example.com" }

/-- A fixed parameter object for pagination-only statements. -/
def anyBase : ApiParams := apiParamsOf baseArgs

/-- A source that returns an empty page with a continuation token,
forever. -/
def emptyPageSource : ApiParams → Page := fun _ => ⟨[], some "more"⟩

/-- A source that returns one record and a continuation token on every
page. -/
def goodSource : ApiParams → Page := fun _ => ⟨[wMeeting], some "more"⟩

/-- A request with an out-of-range lookback. -/
def args9 : SearchArgs := { baseArgs with search_term := some "sync", days_back := some 400 }

/-! ## General lemmas about the embedded operations -/

theorem mem_dedupJSAux_iff [BEq α] [LawfulBEq α] {a : α} {l : List α} :
    ∀ {seen : List α}, a ∈ dedupJSAux seen l ↔ (a ∈ l ∧ a ∉ seen) := by
  induction l with
  | nil => intro seen; simp [dedupJSAux]
  | cons x xs ih =>
    intro seen
    rw [dedupJSAux]
    by_cases hc : seen.contains x = true
    · have hx : x ∈ seen := by simpa using hc
      rw [if_pos hc, ih]
      constructor
      · rintro ⟨h1, h2⟩
        exact ⟨List.mem_cons_of_mem _ h1, h2⟩
      · rintro ⟨h1, h2⟩
        rcases List.mem_cons.mp h1 with rfl | h1
        · exact absurd hx h2
        · exact ⟨h1, h2⟩
    · have hx : x ∉ seen := by simpa using hc
      rw [if_neg hc]
      constructor
      · intro h
        rcases List.mem_cons.mp h with rfl | h
        · exact ⟨List.mem_cons_self _ _, hx⟩
        · obtain ⟨h1, h2⟩ := ih.mp h
          exact ⟨List.mem_cons_of_mem _ h1, fun hs => h2 (List.mem_append_left _ hs)⟩
      · rintro ⟨h1, h2⟩
        by_cases hax : a = x
        · subst hax; exact List.mem_cons_self _ _
        · rcases List.mem_cons.mp h1 with rfl | h1
          · exact absurd rfl hax
          · refine List.mem_cons_of_mem _ (ih.mpr ⟨h1, fun hs => ?_⟩)
            rcases List.mem_append.mp hs with hs | hs
            · exact h2 hs
            · exact hax (by simpa using hs)

theorem hardcoded_mem_all (user : List String) {e : Option String}
    (he : e ∈ hardcodedExcludeTeams) : e ∈ allExcludeTeams user := by
  show e ∈ dedupJSAux [] (hardcodedExcludeTeams ++ user.map some)
  exact mem_dedupJSAux_iff.mpr ⟨List.mem_append_left _ he, List.not_mem_nil e⟩

theorem excluded_mono {user : List String} {t : Option String}
    (h : isTeamExcluded hardcodedExcludeTeams t = true) :
    isTeamExcluded (allExcludeTeams user) t = true := by
  rw [isTeamExcluded, List.any_eq_true] at h ⊢
  obtain ⟨e, he, hhit⟩ := h
  exact ⟨e, hardcoded_mem_all user he, hhit⟩

theorem teamSafe_of_not_excluded {t : Option String}
    (h : isTeamExcluded hardcodedExcludeTeams t = false) : teamSafeB t = true := by
  rw [isTeamExcluded, List.any_eq_false] at h
  cases t with
  | none => exact absurd (h none (by simp [hardcodedExcludeTeams])) (by simp [excludeEntryHits])
  | some s =>
    have h1 := h (some "Executive") (by simp [hardcodedExcludeTeams])
    have h2 := h (some "Personal") (by simp [hardcodedExcludeTeams])
    have h3 := h (some "No Team") (by simp [hardcodedExcludeTeams])
    have h4 := h none (by simp [hardcodedExcludeTeams])
    simp only [excludeEntryHits] at h1 h2 h3 h4
    rw [show jsToLower "Executive" = "executive" from rfl] at h1
    rw [show jsToLower "Personal" = "personal" from rfl] at h2
    rw [show jsToLower "No Team" = "no team" from rfl] at h3
    simp only [teamSafeB]
    simp [h1, h2, h3, h4]

theorem teamSafe_of_not_excluded_all {user : List String} {t : Option String}
    (h : isTeamExcluded (allExcludeTeams user) t = false) : teamSafeB t = true := by
  apply teamSafe_of_not_excluded
  cases hh : isTeamExcluded hardcodedExcludeTeams t with
  | false => rfl
  | true => rw [excluded_mono hh] at h; simp at h

/-! ## Inversion lemmas for the pipeline stages -/

theorem runSearch_some_iff {source : ApiParams → Page} {fuel : Nat} {args : SearchArgs}
    {r : SearchResult} :
    runSearch source fuel args = some r ↔
      ∃ L, matchingMeetings source fuel args = some L ∧ mkResult args L = r := by
  simp [runSearch, Option.map_eq_some']

theorem matchingMeetings_some_iff {source : ApiParams → Page} {fuel : Nat}
    {args : SearchArgs} {L : List Meeting} :
    matchingMeetings source fuel args = some L ↔
      ∃ C, candidateMeetings source fuel args = some C ∧
        (if !jsIsEmpty (planOf args).freeText then
          C.filter (meetingMatches (planOf args).freeText)
        else C) = L := by
  simp [matchingMeetings, Option.map_eq_some']

theorem candidateMeetings_some_iff {source : ApiParams → Page} {fuel : Nat}
    {args : SearchArgs} {C : List Meeting} :
    candidateMeetings source fuel args = some C ↔
      ∃ A, fetchedMeetings source fuel args = some A ∧
        ((if !(planOf args).emailsToFilter.isEmpty then
            A.filter (emailFilterPass (planOf args).emailsToFilter)
          else A).filter fun m =>
            !isTeamExcluded (allExcludeTeams (args.exclude_teams.getD []))
              (teamOfMeeting m)) = C := by
  simp [candidateMeetings, Option.map_eq_some']

theorem mem_candidate_not_excluded {source : ApiParams → Page} {fuel : Nat}
    {args : SearchArgs} {C : List Meeting} {m : Meeting}
    (hC : candidateMeetings source fuel args = some C) (hm : m ∈ C) :
    isTeamExcluded (allExcludeTeams (args.exclude_teams.getD [])) (teamOfMeeting m) = false := by
  obtain ⟨A, _, hCA⟩ := candidateMeetings_some_iff.mp hC
  subst hCA
  simpa using (List.mem_filter.mp hm).2

theorem mem_matching_props {source : ApiParams → Page} {fuel : Nat}
    {args : SearchArgs} {L : List Meeting} {m : Meeting}
    (hL : matchingMeetings source fuel args = some L) (hm : m ∈ L) :
    isTeamExcluded (allExcludeTeams (args.exclude_teams.getD [])) (teamOfMeeting m) = false ∧
      (jsIsEmpty (planOf args).freeText = false →
        meetingMatches (planOf args).freeText m = true) := by
  obtain ⟨C, hC, hLC⟩ := matchingMeetings_some_iff.mp hL
  subst hLC
  split at hm
  · obtain ⟨hmC, hmatch⟩ := List.mem_filter.mp hm
    exact ⟨mem_candidate_not_excluded hC hmC, fun _ => hmatch⟩
  · next hcond =>
    refine ⟨mem_candidate_not_excluded hC hm, fun hft => ?_⟩
    exact absurd (by simp [hft]) hcond

theorem mem_finalSlice {args : SearchArgs} {matching : List Meeting} {m : Meeting}
    (h : m ∈ finalSlice args matching) : m ∈ matching := by
  unfold finalSlice at h
  split at h
  · rw [jsSliceLast] at h
    exact List.drop_subset _ _ h
  · exact List.take_subset _ _ h

theorem mem_result_format {args : SearchArgs} {matching : List Meeting}
    {fm : FormattedMeeting} (h : fm ∈ (mkResult args matching).meetings) :
    ∃ m, m ∈ matching ∧
      fm = formatMeeting (planOf args).includeSummary (planOf args).includeActionItems
        (planOf args).includeTranscript m := by
  simp only [mkResult, List.mem_map] at h
  obtain ⟨m, hm, rfl⟩ := h
  exact ⟨m, mem_finalSlice hm, rfl⟩

/-! ## Pagination lemmas -/

theorem emptyPage_loop_none :
    ∀ (fuel : Nat) (acc : List Meeting) (total : Nat) (cursor : Option String),
      total < maxFetchLimit →
      paginateLoop emptyPageSource anyBase fuel acc total cursor = none := by
  intro fuel
  induction fuel with
  | zero => intro acc total cursor _; rfl
  | succ n ih =>
    intro acc total cursor h
    simp only [paginateLoop, emptyPageSource, List.length_nil, Nat.add_zero, List.append_nil]
    rw [if_neg (by omega), if_pos (show cursorTruthy (some "more") = true from rfl)]
    exact ih acc total _ h

theorem paginate_reaches_cap (source : ApiParams → Page) (base : ApiParams)
    (hp : ∀ p, 1 ≤ (source p).items.length ∧ cursorTruthy (source p).next_cursor = true) :
    ∀ (fuel : Nat) (acc : List Meeting) (total : Nat) (cursor : Option String),
      acc.length = total → maxFetchLimit ≤ total + fuel → 1 ≤ fuel →
      ∃ ms, paginateLoop source base fuel acc total cursor = some ms ∧
        maxFetchLimit ≤ ms.length := by
  intro fuel
  induction fuel with
  | zero => intro acc total cursor _ _ h1; exact absurd h1 (by omega)
  | succ n ih =>
    intro acc total cursor hlen hcap _
    simp only [paginateLoop]
    by_cases hstop :
        maxFetchLimit ≤ total + (source { base with cursor := cursor }).items.length
    · rw [if_pos hstop]
      refine ⟨_, rfl, ?_⟩
      rw [List.length_append, hlen]
      exact hstop
    · rw [if_neg hstop, if_pos ((hp { base with cursor := cursor }).2)]
      have hone := (hp { base with cursor := cursor }).1
      apply ih
      · rw [List.length_append, hlen]
      · omega
      · omega

/-! ## A concrete run used to instantiate several theorems -/

theorem wRunSearch_eq : runSearch wSource 5 wArgs = some wSearchResult := by decide

/-! ## Claim theorems -/

/-- C1: every meeting record in any returned result set of
`search_meetings` has a present, non-empty owning team that does not
case-insensitively contain "Executive", "Personal" or "No Team"; and a
team excluded by the hardcoded list stays excluded no matter which
`exclude_teams` the caller supplies (caller exclusions are additive
only). -/
theorem C1_safety_filter :
    (∀ (source : ApiParams → Page) (fuel : Nat) (args : SearchArgs) (r : SearchResult)
      (fm : FormattedMeeting), runSearch source fuel args = some r → fm ∈ r.meetings →
      teamSafeB (fm.recorded_by.bind RecordedBy.team) = true) ∧
    (∀ (user : List String) (t : Option String),
      isTeamExcluded hardcodedExcludeTeams t = true →
      isTeamExcluded (allExcludeTeams user) t = true) := by
  constructor
  · intro source fuel args r fm hrun hfm
    obtain ⟨L, hL, hmk⟩ := runSearch_some_iff.mp hrun
    subst hmk
    obtain ⟨m, hmL, rfl⟩ := mem_result_format hfm
    have hsafe := teamSafe_of_not_excluded_all (mem_matching_props hL hmL).1
    simpa [formatMeeting, teamOfMeeting] using hsafe
  · exact fun user t h => excluded_mono h

/-- C1 witness: a concrete run whose returned record satisfies the team
property, and a concrete caller exclusion that is added on top of the
fixed set. -/
theorem C1_safety_filter_witness :
    teamSafeB ((formatMeeting true true false wMeeting).recorded_by.bind RecordedBy.team)
        = true ∧
    isTeamExcluded (allExcludeTeams ["sales"]) (some "my Personal notes") = true :=
  ⟨C1_safety_filter.1 wSource 5 wArgs wSearchResult (formatMeeting true true false wMeeting)
      wRunSearch_eq (by decide),
    C1_safety_filter.2 ["sales"] (some "my Personal notes") (by decide)⟩

/-- C2: every successful `search_meetings` response satisfies
`showing ≤ total_found`, `showing ≤ requested_count` (N for a last-N
request, else the caller limit capped at 100 with default 50), and
`has_more` is true exactly when `total_found > showing`. -/
theorem C2_envelope_counts :
    ∀ (source : ApiParams → Page) (fuel : Nat) (args : SearchArgs) (r : SearchResult),
      runSearch source fuel args = some r →
      r.showing ≤ r.total_found ∧ r.showing ≤ requestedCount args ∧
        (r.has_more = true ↔ r.showing < r.total_found) := by
  intro source fuel args r hrun
  obtain ⟨L, _, hmk⟩ := runSearch_some_iff.mp hrun
  subst hmk
  rcases heln : effectiveLastN (planOf args) with _ | n
  · have h1 : finalSlice args L = L.take (limitOf args) := by
      simp [finalSlice, heln]
    have h2 : requestedCount args = limitOf args := by
      simp [requestedCount, heln]
    simp only [mkResult, h1, h2, List.length_take, decide_eq_true_eq]
    refine ⟨?_, ?_, ?_⟩ <;> omega
  · have h1 : finalSlice args L = L.drop (L.length - n) := by
      simp [finalSlice, heln, jsSliceLast]
    have h2 : requestedCount args = n := by
      simp [requestedCount, heln]
    simp only [mkResult, h1, h2, List.length_drop, decide_eq_true_eq]
    refine ⟨?_, ?_, ?_⟩ <;> omega

/-- C2 witness: the envelope arithmetic at a concrete run. -/
theorem C2_envelope_counts_witness :
    wSearchResult.showing ≤ wSearchResult.total_found ∧
    wSearchResult.showing ≤ requestedCount wArgs ∧
    (wSearchResult.has_more = true ↔ wSearchResult.showing < wSearchResult.total_found) :=
  C2_envelope_counts wSource 5 wArgs wSearchResult wRunSearch_eq

/-- C3 counterexample: `last 3 meetings` is detected as a last-N request,
yet no domain or owner filter is present, so only the first page is
fetched: the second page holds a safety-passing, term-matching record
behind a live continuation token, but the response reports a single
match. -/
theorem C3_counterexample :
    (planOf lastArgs3).isLastRequest = true ∧
    (planOf lastArgs3).hasSpecificFilters = false ∧
    cursorTruthy (cexSource (apiParamsOf lastArgs3)).next_cursor = true ∧
    teamSafeB (teamOfMeeting cexMeetingB) = true ∧
    meetingMatches (planOf lastArgs3).freeText cexMeetingB = true ∧
    searchSucceeds cexSource 10 lastArgs3 = true ∧
    resultTotalFound cexSource 10 lastArgs3 = 1 := by decide

/-- C3 amended: last-N detection never changes the pagination mode; the
pipeline paginates exhaustively exactly when a domain or owner filter is
present in the API parameters (pushed team filters do not count), and
without one the response depends only on the single first page. -/
theorem C3_amended_pagination :
    (∀ args : SearchArgs, (planOf args).hasSpecificFilters =
      ((planOf args).domains.isSome || (planOf args).recordedBy.isSome)) ∧
    (∀ (fuel : Nat) (args : SearchArgs) (s1 s2 : ApiParams → Page),
      (planOf args).hasSpecificFilters = false →
      s1 (apiParamsOf args) = s2 (apiParamsOf args) →
      runSearch s1 fuel args = runSearch s2 fuel args) := by
  constructor
  · intro args; rfl
  · intro fuel args s1 s2 hs hpage
    simp only [runSearch, matchingMeetings, candidateMeetings, fetchedMeetings, hs,
      Bool.false_eq_true, if_false]
    rw [hpage]

/-- C3 amended witness: the two-page last-N source and its first page
alone produce identical responses. -/
theorem C3_amended_pagination_witness :
    runSearch cexSource 10 lastArgs3 = runSearch cexOnePage 10 lastArgs3 :=
  C3_amended_pagination.2 10 lastArgs3 cexSource cexOnePage (by decide) (by decide)

/-- C4: the code never rejects a missing `search_term`.  With no search
term at all the handler still fetches from the source and returns the
fetched (safety-filtered) records as a success payload, contradicting the
declared `required: ["search_term"]` input schema. -/
theorem C4_missing_term_not_rejected :
    baseArgs.search_term = none ∧
    searchSucceeds wSource 5 baseArgs = true ∧
    resultTotalFound wSource 5 baseArgs = 1 ∧
    resultShowing wSource 5 baseArgs = 1 := by decide

/-- C5 counterexample: a source that returns the same record (identifier
7) on two pages of one exhaustive fetch; the aggregated set keeps both
occurrences and the response shows the record twice. -/
theorem C5_counterexample :
    dupMeeting.recording_id = 7 ∧
    (planOf dupArgs).hasSpecificFilters = true ∧
    resultTotalFound (dupSourceOf dupMeeting) 10 dupArgs = 2 ∧
    resultMeetings (dupSourceOf dupMeeting) 10 dupArgs =
      [formatMeeting true true false dupMeeting, formatMeeting true true false dupMeeting] := by
  decide

/-- C5 amended: the aggregation step performs no deduplication at all:
any safety-passing, term-matching record served on both pages of one
exhaustive fetch appears twice in the aggregated set and twice in the
response. -/
theorem C5_amended_no_dedup :
    ∀ m : Meeting,
      isTeamExcluded (allExcludeTeams []) (teamOfMeeting m) = false →
      meetingMatches "legalstart.fr" m = true →
      resultTotalFound (dupSourceOf m) 10 dupArgs = 2 ∧
      resultMeetings (dupSourceOf m) 10 dupArgs =
        [formatMeeting true true false m, formatMeeting true true false m] := by
  intro m h1 h2
  have hfetch : fetchedMeetings (dupSourceOf m) 10 dupArgs = some [m, m] := rfl
  have hcand : candidateMeetings (dupSourceOf m) 10 dupArgs = some [m, m] := by
    simp only [candidateMeetings, hfetch, Option.map_some', Option.some.injEq]
    rw [show (planOf dupArgs).emailsToFilter = [] from by decide]
    rw [show dupArgs.exclude_teams.getD [] = [] from rfl]
    simp [h1]
  have hmatch : matchingMeetings (dupSourceOf m) 10 dupArgs = some [m, m] := by
    simp only [matchingMeetings, hcand, Option.map_some', Option.some.injEq]
    rw [show (planOf dupArgs).freeText = "legalstart.fr" from by decide]
    simp [show jsIsEmpty "legalstart.fr" = false from rfl, h2]
  have hrun : runSearch (dupSourceOf m) 10 dupArgs = some (mkResult dupArgs [m, m]) := by
    simp only [runSearch, hmatch, Option.map_some']
  constructor
  · simp [resultTotalFound, hrun, mkResult]
  · simp only [resultMeetings, hrun, Option.map_some', Option.getD_some, mkResult]
    simp only [finalSlice, show effectiveLastN (planOf dupArgs) = none from by decide]
    rw [show limitOf dupArgs = 50 from by decide,
      show List.take 50 [m, m] = [m, m] from rfl,
      show (planOf dupArgs).includeSummary = true from by decide,
      show (planOf dupArgs).includeActionItems = true from by decide,
      show (planOf dupArgs).includeTranscript = false from by decide]
    rfl

/-- C5 amended witness: the duplicated concrete record. -/
theorem C5_amended_no_dedup_witness :
    resultTotalFound (dupSourceOf dupMeeting) 10 dupArgs = 2 ∧
    resultMeetings (dupSourceOf dupMeeting) 10 dupArgs =
      [formatMeeting true true false dupMeeting, formatMeeting true true false dupMeeting] :=
  C5_amended_no_dedup dupMeeting (by decide) (by decide)

/-- C6: for `search_term = "last 3 meetings"` and any five
safety-passing, term-matching records A,B,C,D,E delivered in that
(chronological) order, the shaped result is exactly [C,D,E] with
`showing = 3`. -/
theorem C6_last_three_semantics :
    ∀ a b c d e : Meeting,
      (∀ m ∈ [a, b, c, d, e],
        isTeamExcluded (allExcludeTeams []) (teamOfMeeting m) = false ∧
        meetingMatches "last 3 meetings" m = true) →
      resultMeetings (srcOf5 a b c d e) 5 lastArgs3 =
        [formatMeeting true true false c, formatMeeting true true false d,
          formatMeeting true true false e] ∧
      resultShowing (srcOf5 a b c d e) 5 lastArgs3 = 3 := by
  intro a b c d e h
  have ha := h a (by simp)
  have hb := h b (by simp)
  have hc := h c (by simp)
  have hd := h d (by simp)
  have he := h e (by simp)
  have hfetch : fetchedMeetings (srcOf5 a b c d e) 5 lastArgs3 = some [a, b, c, d, e] := rfl
  have hcand : candidateMeetings (srcOf5 a b c d e) 5 lastArgs3 = some [a, b, c, d, e] := by
    simp only [candidateMeetings, hfetch, Option.map_some', Option.some.injEq]
    rw [show (planOf lastArgs3).emailsToFilter = [] from by decide]
    rw [show lastArgs3.exclude_teams.getD [] = [] from rfl]
    simp [ha.1, hb.1, hc.1, hd.1, he.1]
  have hmatch : matchingMeetings (srcOf5 a b c d e) 5 lastArgs3 = some [a, b, c, d, e] := by
    simp only [matchingMeetings, hcand, Option.map_some', Option.some.injEq]
    rw [show (planOf lastArgs3).freeText = "last 3 meetings" from by decide]
    simp [show jsIsEmpty "last 3 meetings" = false from rfl, ha.2, hb.2, hc.2, hd.2, he.2]
  have hrun : runSearch (srcOf5 a b c d e) 5 lastArgs3 =
      some (mkResult lastArgs3 [a, b, c, d, e]) := by
    simp only [runSearch, hmatch, Option.map_some']
  have hfin : finalSlice lastArgs3 [a, b, c, d, e] = [c, d, e] := by
    simp only [finalSlice, show effectiveLastN (planOf lastArgs3) = some 3 from by decide,
      jsSliceLast]
    rfl
  constructor
  · simp only [resultMeetings, hrun, Option.map_some', Option.getD_some, mkResult, hfin]
    rw [show (planOf lastArgs3).includeSummary = true from by decide,
      show (planOf lastArgs3).includeActionItems = true from by decide,
      show (planOf lastArgs3).includeTranscript = false from by decide]
    rfl
  · simp [resultShowing, hrun, mkResult, hfin]

/-- C6 witness: five concrete records. -/
theorem C6_last_three_semantics_witness :
    resultMeetings (srcOf5 mtgE1 mtgE2 mtgE3 mtgE4 mtgE5) 5 lastArgs3 =
      [formatMeeting true true false mtgE3, formatMeeting true true false mtgE4,
        formatMeeting true true false mtgE5] ∧
    resultShowing (srcOf5 mtgE1 mtgE2 mtgE3 mtgE4 mtgE5) 5 lastArgs3 = 3 :=
  C6_last_three_semantics mtgE1 mtgE2 mtgE3 mtgE4 mtgE5 (by decide)

/-- C7: for `search_term = "find calls with alice@example.com"` the plan
keeps `alice@example.com` as a client-side attendee-email filter, pushes
`example.com` as a domain filter, and the residual free text is
`"find calls with"`. -/
theorem C7_email_detection :
    (planOf emailArgs7).emailsToFilter = ["alice@example.com"] ∧
    (apiParamsOf emailArgs7).calendar_invitees_domains = some ["example.com"] ∧
    (planOf emailArgs7).effGlobal = some "find calls with" := by decide

/-- C8 counterexample: a source that returns an empty page with a
continuation token on every call; the fetch loop never increases
`totalFetched`, so it never halts for any amount of fuel. -/
theorem C8_counterexample :
    cursorTruthy (emptyPageSource anyBase).next_cursor = true ∧
    (emptyPageSource anyBase).items.length = 0 ∧
    ∀ fuel : Nat, paginateLoop emptyPageSource anyBase fuel [] 0 none = none :=
  ⟨rfl, rfl, fun fuel => emptyPage_loop_none fuel [] 0 none (by decide)⟩

/-- C8 amended: against a source that returns a continuation token and at
least one record on every page, the loop halts after fetching at least
`maxFetchLimit` (1000) records, and the request still completes with a
response whenever the fuel covers the cap. -/
theorem C8_cap_halts :
    ∀ source : ApiParams → Page,
      (∀ p, 1 ≤ (source p).items.length ∧ cursorTruthy (source p).next_cursor = true) →
      (∀ base : ApiParams,
        ∃ ms, paginateLoop source base maxFetchLimit [] 0 none = some ms ∧
          maxFetchLimit ≤ ms.length) ∧
      (∀ (args : SearchArgs) (fuel : Nat), maxFetchLimit ≤ fuel →
        searchSucceeds source fuel args = true) := by
  intro source hp
  constructor
  · intro base
    exact paginate_reaches_cap source base hp maxFetchLimit [] 0 none rfl (by omega) (by decide)
  · intro args fuel hfuel
    have h1000 : (1 : Nat) ≤ maxFetchLimit := by decide
    have hfetch : ∃ A, fetchedMeetings source fuel args = some A := by
      unfold fetchedMeetings
      cases hs : (planOf args).hasSpecificFilters with
      | false => exact ⟨(source (apiParamsOf args)).items, by simp [hs]⟩
      | true =>
        obtain ⟨ms, hms, _⟩ :=
          paginate_reaches_cap source (apiParamsOf args) hp fuel [] 0 none rfl (by omega)
            (by omega)
        exact ⟨ms, by simp [hs, hms]⟩
    obtain ⟨A, hA⟩ := hfetch
    simp [searchSucceeds, runSearch, matchingMeetings, candidateMeetings, hA]

/-- C8 amended witness: a concrete one-record-per-page source. -/
theorem C8_cap_halts_witness :
    (∃ ms, paginateLoop goodSource anyBase maxFetchLimit [] 0 none = some ms ∧
      maxFetchLimit ≤ ms.length) ∧
    searchSucceeds goodSource maxFetchLimit wArgs = true := by
  have h := C8_cap_halts goodSource (fun p => ⟨Nat.le_refl 1, rfl⟩)
  exact ⟨h.1 anyBase, h.2 wArgs maxFetchLimit (Nat.le_refl _)⟩

/-- C9 counterexample: with `days_back = 400` the fetch uses a bound of
`min 400 365 = 365` days, while `filters_applied.days_back` reports the
uncapped 400 — the reported lookback is not the one applied. -/
theorem C9_counterexample :
    (apiParamsOf args9).created_after = DateBound.daysAgo 365 ∧
    resultDaysBack wSource 5 args9 = 400 ∧
    searchSucceeds wSource 5 args9 = true ∧
    (365 : Nat) ≠ 400 := by decide

/-- C9 amended: `filters_applied.days_back` always reports the
caller-supplied `days_back` (180 when absent or zero), without the 365
cap and even when an explicit `created_after` supersedes it; the bound
actually applied, absent an explicit `created_after`, is
`min (reported, 365)` days back. -/
theorem C9_amended_lookback :
    ∀ (source : ApiParams → Page) (fuel : Nat) (args : SearchArgs) (r : SearchResult),
      runSearch source fuel args = some r →
      r.filters_days_back = reportedDaysBack args ∧
      (strOptTruthy args.created_after = false →
        (apiParamsOf args).created_after =
          DateBound.daysAgo (min (reportedDaysBack args) 365)) := by
  intro source fuel args r hrun
  obtain ⟨L, _, hmk⟩ := runSearch_some_iff.mp hrun
  subst hmk
  constructor
  · simp [mkResult]
  · intro hca
    show (planOf args).createdAfter = _
    simp only [planOf]
    rw [if_neg (by simp [hca])]
    cases hdb : args.days_back with
    | none =>
      rw [if_neg (by simp [natTruthy, hdb])]
      simp [reportedDaysBack, hdb]
    | some nb =>
      by_cases hnb : nb = 0
      · subst hnb
        rw [if_neg (by simp [natTruthy, hdb])]
        simp [reportedDaysBack, hdb]
      · rw [if_pos (by simp [natTruthy, hdb, hnb])]
        simp [reportedDaysBack, hdb, hnb]

/-- C9 amended witness: the concrete run with the default lookback. -/
theorem C9_amended_lookback_witness :
    wSearchResult.filters_days_back = reportedDaysBack wArgs ∧
    (strOptTruthy wArgs.created_after = false →
      (apiParamsOf wArgs).created_after =
        DateBound.daysAgo (min (reportedDaysBack wArgs) 365)) :=
  C9_amended_lookback wSource 5 wArgs wSearchResult wRunSearch_eq

/-! ## Helper lemmas for the residual-term claim -/

theorem jsIsEmpty_eq_false_of_ne {s : String} (h : s ≠ "") : jsIsEmpty s = false := by
  cases s with
  | mk l =>
    cases l with
    | nil => exact absurd rfl h
    | cons c cs => rfl

theorem heuristic_no_tokens {s : String}
    (hem : emailMatches s = []) (hdom : domainMatches s = [])
    (hat : jsIncludes s "@" = false)
    (hdot : jsIncludes s "." = false ∨ jsIncludes s " " = true) :
    ∃ ts : Option (List String), heuristicChain s none = ([], none, ts, s) := by
  unfold heuristicChain
  rw [hem, hdom]
  simp only [List.map_nil, dedupJS, dedupJSAux, List.isEmpty_nil, Bool.not_true,
    Bool.false_eq_true, if_false]
  rw [hat]
  rcases hdot with h | h
  · simp only [h, Bool.not_false, Bool.false_and, Bool.and_false, Bool.false_eq_true, if_false]
    split
    · exact ⟨some [s], rfl⟩
    · exact ⟨none, rfl⟩
  · simp only [h, Bool.not_false, Bool.not_true, Bool.and_false, Bool.false_eq_true, if_false]
    split
    · exact ⟨some [s], rfl⟩
    · exact ⟨none, rfl⟩

/-- C10: a `last <N>` request whose term contains no extractable email,
domain, agent directive or `@`/bare-domain token keeps the whole
(lowercased, whitespace-normalised) term — `last <N>` included — as the
client-side filter, and any returned record comes from a meeting matching
that full term. -/
theorem C10_lastN_kept_in_residual :
    ∀ (args : SearchArgs) (term : String) (n : Nat) (source : ApiParams → Page)
      (fuel : Nat) (r : SearchResult) (fm : FormattedMeeting),
      args.search_term = some term →
      parseLastN (jsToLower term) = some n → n ≠ 0 →
      parseAgent (jsToLower term) = none →
      emailMatches (jsToLower term) = [] →
      domainMatches (jsToLower term) = [] →
      jsIncludes (jsToLower term) "@" = false →
      (jsIncludes (jsToLower term) "." = false ∨ jsIncludes (jsToLower term) " " = true) →
      normWs (jsToLower term) ≠ "" →
      (planOf args).freeText = normWs (jsToLower term) ∧
      (runSearch source fuel args = some r → fm ∈ r.meetings →
        ∃ m, meetingMatches (normWs (jsToLower term)) m = true ∧
          fm = formatMeeting (planOf args).includeSummary (planOf args).includeActionItems
            (planOf args).includeTranscript m) := by
  intro args term n source fuel r fm hterm hlast hn hag hem hdom hat hdot hnw
  have htermne : term ≠ "" := by
    intro h; subst h; exact hnw rfl
  have hne : jsIsEmpty term = false := jsIsEmpty_eq_false_of_ne htermne
  have hslo : searchLowerOf args = jsToLower term := by
    simp [searchLowerOf, hterm]
  obtain ⟨ts, hts⟩ := heuristic_no_tokens hem hdom hat hdot
  have hnwe : jsIsEmpty (normWs (jsToLower term)) = false := jsIsEmpty_eq_false_of_ne hnw
  have hfree : (planOf args).freeText = normWs (jsToLower term) := by
    simp only [planOf, hslo, hag, hts, hterm]
    rw [if_pos (by simp [strOptTruthy, hne])]
    simp [hnwe]
  refine ⟨hfree, fun hrun hfm => ?_⟩
  obtain ⟨L, hL, hmk⟩ := runSearch_some_iff.mp hrun
  subst hmk
  obtain ⟨m, hmL, rfl⟩ := mem_result_format hfm
  have hmatch := (mem_matching_props hL hmL).2 (by rw [hfree]; exact hnwe)
  rw [hfree] at hmatch
  exact ⟨m, hmatch, rfl⟩

/-- C10 witness: the concrete request `last 3 meetings`. -/
theorem C10_lastN_kept_in_residual_witness :
    (planOf lastArgs3).freeText = normWs (jsToLower "last 3 meetings") ∧
    (runSearch (srcOf5 mtgE1 mtgE2 mtgE3 mtgE4 mtgE5) 5 lastArgs3 = some wSearchResult →
      formatMeeting true true false mtgE3 ∈ wSearchResult.meetings →
      ∃ m, meetingMatches (normWs (jsToLower "last 3 meetings")) m = true ∧
        formatMeeting true true false mtgE3 =
          formatMeeting (planOf lastArgs3).includeSummary (planOf lastArgs3).includeActionItems
            (planOf lastArgs3).includeTranscript m) :=
  C10_lastN_kept_in_residual lastArgs3 "last 3 meetings" 3
    (srcOf5 mtgE1 mtgE2 mtgE3 mtgE4 mtgE5) 5 wSearchResult
    (formatMeeting true true false mtgE3) rfl (by decide) (by decide) (by decide)
    (by decide) (by decide) (by decide) (by decide) (by decide)

end Fathom
